import Mathlib

/-
Shallow embedding of opm-common, file
src/opm/parser/eclipse/EclipseState/Grid/GridProperties.hpp
(template class Opm::GridProperties<T>).

Modelling choices, faithful to the C++:
- The class members are the fields of the structure GridProperties below.
  m_properties (std::map<std::string, std::shared_ptr<GridProperty<T>>>) and
  m_property_list (std::vector of the same shared_ptr values) alias the same
  underlying GridProperty objects.  We model the shared objects by an arena:
  property_list is the creation-order list of the objects themselves, and
  properties maps a keyword name to the index of its object in that arena,
  so that both views always denote the same instance.
- std::unordered_map / std::map lookups by key are modelled by an
  association list with a first-match lookup (alookup); the only insertion
  paths used in the source, emplace and insert-when-absent, never create a
  duplicate key, so iteration order is irrelevant to every lookup.
- std::set<std::string> (m_autoGeneratedProperties_) is a duplicate-free
  list of strings.
- C++ exceptions are modelled by Except: every potentially throwing
  operation returns an Except value paired with the post-call state, and a
  throwing path returns the state unchanged, exactly as in the source where
  every throw happens before any mutation.
- The collaborator headers GridProperty.hpp, EclipseGrid.hpp, Box.hpp,
  MessageContainer.hpp and OpmLog.hpp are not part of the sources at hand;
  their small visible surface is modelled from the specification text and is
  marked so in the doc comments.
-/

/-- Modelled from the spec: message severity tag of the diagnostic sink
(Log::MessageType in OpmLog.hpp, which is not among the sources). -/
inductive MessageType where
  | Warning
  | Info
deriving DecidableEq

/-- Modelled from the spec: a diagnostic message is a severity tag plus a
free-text body. -/
structure Message where
  mtype : MessageType
  text : String
deriving DecidableEq

/-- Modelled from the spec: the grid geometry collaborator (EclipseGrid.hpp is
not among the sources); it only supplies the three cell-count extents. -/
structure EclipseGrid where
  nx : Nat
  ny : Nat
  nz : Nat
deriving DecidableEq

/-- Modelled from the spec: a supported-keyword descriptor
(name, default value, post-processing function, dimension tag), from
GridProperty.hpp which is not among the sources.  The post-processing
function is never applied nor inspected by the registry code at hand, so it
is represented by an abstract numeric tag. -/
structure SupportedKeywordInfo (T : Type) where
  keywordName : String
  defaultValue : T
  postProcessor : Nat
  dimString : String
deriving DecidableEq

/-- Modelled from the spec: a property instance is a dense array of element
values, one per grid cell, indexed by the flat cell index, default-filled at
construction (GridProperty.hpp is not among the sources). -/
structure GridProperty (T : Type) where
  kwInfo : SupportedKeywordInfo T
  values : List T
deriving DecidableEq

/-- Modelled from the spec: GridProperty construction from the grid extents
and a descriptor default-fills one value per grid cell. -/
def GridProperty.make {T : Type} (nx ny nz : Nat) (info : SupportedKeywordInfo T) :
    GridProperty T :=
  { kwInfo := info, values := List.replicate (nx * ny * nz) info.defaultValue }

/-- Modelled from the spec: a region (Box.hpp is not among the sources) is a
sub-volume of the grid, represented here by the set of flat cell indices it
covers. -/
structure Box where
  cells : List Nat
deriving DecidableEq

/-- Modelled from the spec: region-scoped copy between two same-shaped
arrays; the cell at flat index k takes the source value when k is in the
region and keeps the target value otherwise.  The parameter i is the flat
index of the head of the remaining target list. -/
def copyRegion {T : Type} (box : Box) (src : List T) : List T → Nat → List T
  | [], _ => []
  | v :: rest, i => (if box.cells.contains i then src.getD i v else v) :: copyRegion box src rest (i + 1)

/-- Modelled from the spec: GridProperty.copyFrom copies the source values
into the target restricted to the region. -/
def GridProperty.copyFrom {T : Type} (tgt : GridProperty T) (src : GridProperty T)
    (box : Box) : GridProperty T :=
  { tgt with values := copyRegion box src.values tgt.values 0 }

/-- C++ exceptions thrown by the registry: std::invalid_argument carrying its
message, and std::out_of_range as thrown by std::map::at. -/
inductive Err where
  | invalidArgument (msg : String)
  | outOfRange (msg : String)
deriving DecidableEq

/-- First-match lookup in an association list keyed by strings; models the
by-key lookup of std::map / std::unordered_map (whose keys are unique). -/
def alookup {B : Type} : List (String × B) → String → Option B
  | [], _ => none
  | (k, v) :: rest, key => if key = k then some v else alookup rest key

/-- Membership test on a list of strings (std::set::count > 0). -/
def containsStr : List String → String → Bool
  | [], _ => false
  | k :: rest, key => if key = k then true else containsStr rest key

/-- Removal from a duplicate-free list of strings (std::set::erase). -/
def eraseStr : List String → String → List String
  | [], _ => []
  | k :: rest, key => if key = k then rest else k :: eraseStr rest key

/-- std::map::emplace / std::unordered_map::emplace: inserts the pair only
when the key is not already present; on a present key it changes nothing. -/
def emplace {B : Type} (m : List (String × B)) (k : String) (v : B) : List (String × B) :=
  if (alookup m k).isSome then m else m ++ [(k, v)]

/-- State of Opm::GridProperties<T>.  properties maps a keyword name to the
index of its instance in property_list (the creation-order arena), modelling
the shared_ptr aliasing between m_properties and m_property_list.
messages is the member MessageContainer m_messages; opmLog models the global
OpmLog sink that OpmLog::addMessage appends to. -/
structure GridProperties (T : Type) where
  eclipseGrid : EclipseGrid
  supportedKeywords : List (String × SupportedKeywordInfo T)
  properties : List (String × Nat)
  property_list : List (GridProperty T)
  autoGeneratedProperties : List String
  messages : List Message
  opmLog : List Message
deriving DecidableEq

/-- The GridProperties constructor: folds emplace over the supplied
descriptor list (so a duplicate name keeps the FIRST descriptor), and starts
with no property instances. -/
def GridProperties.construct {T : Type} (grid : EclipseGrid)
    (supportedKeywords : List (SupportedKeywordInfo T)) : GridProperties T :=
  { eclipseGrid := grid
    supportedKeywords :=
      supportedKeywords.foldl (fun m info => emplace m info.keywordName info) []
    properties := []
    property_list := []
    autoGeneratedProperties := []
    messages := []
    opmLog := [] }

/-- supportsKeyword: the catalog contains the name. -/
def GridProperties.supportsKeyword {T : Type} (s : GridProperties T) (keyword : String) : Bool :=
  (alookup s.supportedKeywords keyword).isSome

/-- isAutoGenerated_: membership in m_autoGeneratedProperties_. -/
def GridProperties.isAutoGenerated {T : Type} (s : GridProperties T) (keyword : String) : Bool :=
  containsStr s.autoGeneratedProperties keyword

/-- hasKeyword: an instance exists AND it is not auto-generated. -/
def GridProperties.hasKeyword {T : Type} (s : GridProperties T) (keyword : String) : Bool :=
  (alookup s.properties keyword).isSome && !(s.isAutoGenerated keyword)

/-- size: length of m_property_list. -/
def GridProperties.size {T : Type} (s : GridProperties T) : Nat :=
  s.property_list.length

/-- Number of grid cells, the product of the three extents. -/
def GridProperties.numCells {T : Type} (s : GridProperties T) : Nat :=
  s.eclipseGrid.nx * s.eclipseGrid.ny * s.eclipseGrid.nz

/-- getMessageContainer: accessor for m_messages. -/
def GridProperties.getMessageContainer {T : Type} (s : GridProperties T) : List Message :=
  s.messages

def unsupportedInContainerMsg (keyword : String) : String :=
  "The keyword: " ++ keyword ++ " is not supported in this container"

def notInitializedMsg (keyword : String) : String :=
  "Keyword: " ++ keyword ++ " is supported - but not initialized."

def notSupportedMsg (keyword : String) : String :=
  "Keyword: " ++ keyword ++ " is not supported."

def invalidIndexMsg : String := "Invalid index"

def promotionWarningMsg (keyword : String) : String :=
  "The keyword " ++ keyword ++ " has been used to calculate the defaults of another keyword before the first time it was explicitly mentioned in the deck. Maybe you need to change the ordering of your keywords (move " ++ keyword ++ " to the front?)."

/-- Dereference of m_properties.at(keyword) through the arena; a missing key
or a dangling index models std::map::at throwing std::out_of_range (which is
unreachable in well-formed states). -/
def GridProperties.atProp {T : Type} (s : GridProperties T) (keyword : String) :
    Except Err (GridProperty T) :=
  match alookup s.properties keyword with
  | none => .error (.outOfRange ("map::at: " ++ keyword))
  | some idx =>
    match s.property_list.get? idx with
    | none => .error (.outOfRange ("map::at: " ++ keyword))
    | some p => .ok p

/-- addAutoGeneratedKeyword_: throws when the keyword is unsupported, is a
no-op returning false when an instance already exists (auto-generated or
not), and otherwise creates a default-filled instance tagged auto-generated,
inserting it in the map and appending it to the creation-order list. -/
def GridProperties.addAutoGeneratedKeyword {T : Type} (s : GridProperties T)
    (keywordName : String) : Except Err Bool × GridProperties T :=
  match alookup s.supportedKeywords keywordName with
  | none => (.error (.invalidArgument (unsupportedInContainerMsg keywordName)), s)
  | some info =>
    if (alookup s.properties keywordName).isSome then (.ok false, s)
    else
      let p := GridProperty.make s.eclipseGrid.nx s.eclipseGrid.ny s.eclipseGrid.nz info
      (.ok true,
        { s with
          autoGeneratedProperties := keywordName :: s.autoGeneratedProperties
          properties := s.properties ++ [(keywordName, s.property_list.length)]
          property_list := s.property_list ++ [p] })

/-- addKeyword: throws when the keyword is unsupported; returns false when an
explicit instance exists; promotes an auto-generated instance in place
(warning to OpmLog, erase from the auto-generated set, instance untouched)
returning true; otherwise creates a default-filled explicit instance and
returns true. -/
def GridProperties.addKeyword {T : Type} (s : GridProperties T) (keywordName : String) :
    Except Err Bool × GridProperties T :=
  match alookup s.supportedKeywords keywordName with
  | none => (.error (.invalidArgument (unsupportedInContainerMsg keywordName)), s)
  | some info =>
    if s.hasKeyword keywordName then (.ok false, s)
    else if containsStr s.autoGeneratedProperties keywordName then
      (.ok true,
        { s with
          opmLog := s.opmLog ++ [⟨MessageType.Warning, promotionWarningMsg keywordName⟩]
          autoGeneratedProperties := eraseStr s.autoGeneratedProperties keywordName })
    else
      let p := GridProperty.make s.eclipseGrid.nx s.eclipseGrid.ny s.eclipseGrid.nz info
      (.ok true,
        { s with
          properties := s.properties ++ [(keywordName, s.property_list.length)]
          property_list := s.property_list ++ [p] })

/-- getKeyword(name): when hasKeyword is false, first runs
addAutoGeneratedKeyword_ (whose exception propagates), then dereferences
m_properties.at(name). -/
def GridProperties.getKeyword {T : Type} (s : GridProperties T) (keyword : String) :
    Except Err (GridProperty T) × GridProperties T :=
  if s.hasKeyword keyword then (s.atProp keyword, s)
  else
    match s.addAutoGeneratedKeyword keyword with
    | (.error e, s1) => (.error e, s1)
    | (.ok _, s1) => (s1.atProp keyword, s1)

/-- getKeyword(index): positional access into the creation-order list;
throws std::invalid_argument("Invalid index") when index >= size(). -/
def GridProperties.getKeywordByIndex {T : Type} (s : GridProperties T) (index : Nat) :
    Except Err (GridProperty T) :=
  if h : index < s.size then .ok (s.property_list.get ⟨index, h⟩)
  else .error (.invalidArgument invalidIndexMsg)

/-- getInitializedKeyword: never materializes (it is a pure read); returns
the instance when hasKeyword holds, otherwise throws the
supported-but-not-initialized message when the keyword is in the catalog and
the not-supported message when it is not. -/
def GridProperties.getInitializedKeyword {T : Type} (s : GridProperties T)
    (keyword : String) : Except Err (GridProperty T) :=
  if s.hasKeyword keyword then s.atProp keyword
  else if s.supportsKeyword keyword then
    .error (.invalidArgument (notInitializedMsg keyword))
  else
    .error (.invalidArgument (notSupportedMsg keyword))

/-- getOrCreateProperty: when hasKeyword is false, first addKeyword (whose
exception propagates, its boolean result is discarded), then getKeyword. -/
def GridProperties.getOrCreateProperty {T : Type} (s : GridProperties T) (name : String) :
    Except Err (GridProperty T) × GridProperties T :=
  if s.hasKeyword name then s.getKeyword name
  else
    match s.addKeyword name with
    | (.error e, s1) => (.error e, s1)
    | (.ok _, s1) => s1.getKeyword name

/-- copyKeyword: getKeyword on the source (lazy materialization), then
getOrCreateProperty on the target, then target.copyFrom(src, box).  The two
C++ references are resolved against the state current at the copyFrom call;
the out-of-range fallbacks model a dangling dereference, unreachable in
well-formed states. -/
def GridProperties.copyKeyword {T : Type} (s : GridProperties T)
    (srcField targetField : String) (inputBox : Box) :
    Except Err Unit × GridProperties T :=
  match s.getKeyword srcField with
  | (.error e, s1) => (.error e, s1)
  | (.ok _, s1) =>
    match s1.getOrCreateProperty targetField with
    | (.error e, s2) => (.error e, s2)
    | (.ok _, s2) =>
      match alookup s2.properties srcField, alookup s2.properties targetField with
      | some si, some ti =>
        match s2.property_list.get? si, s2.property_list.get? ti with
        | some srcP, some tgtP =>
          (.ok (),
            { s2 with property_list := s2.property_list.set ti (tgtP.copyFrom srcP inputBox) })
        | _, _ => (.error (.outOfRange "copyKeyword"), s2)
      | _, _ => (.error (.outOfRange "copyKeyword"), s2)

/-- postAddKeyword: the privileged catalog extension; emplace on the catalog,
hence a no-op when the name is already present. -/
def GridProperties.postAddKeyword {T : Type} (s : GridProperties T) (name : String)
    (defaultValue : T) (postProcessor : Nat) (dimString : String) : GridProperties T :=
  { s with
    supportedKeywords :=
      emplace s.supportedKeywords name ⟨name, defaultValue, postProcessor, dimString⟩ }

/-- Well-formedness of a registry state: every mapped name is in the catalog
and its arena index is in range, indices are not shared between names, every
auto-generated name has an instance, the auto-generated set is duplicate
free, and every instance has one value per grid cell.  Every state reachable
from the constructor satisfies this. -/
def GridProperties.Wf {T : Type} (s : GridProperties T) : Prop :=
  (∀ p ∈ s.properties, (alookup s.supportedKeywords p.1).isSome = true ∧
      p.2 < s.property_list.length) ∧
  (s.properties.map Prod.snd).Nodup ∧
  (∀ kw ∈ s.autoGeneratedProperties, (alookup s.properties kw).isSome = true) ∧
  s.autoGeneratedProperties.Nodup ∧
  (∀ p ∈ s.property_list, p.values.length = s.numCells)

/-- Well-formedness is a decidable conjunction of bounded checks, so it can
be evaluated on concrete registry states. -/
instance gridPropertiesWfDecidable {T : Type} (s : GridProperties T) :
    Decidable s.Wf := by
  unfold GridProperties.Wf
  infer_instance

/-- One materialization step of a scenario: a lazy read (getKeyword) when the
flag is true, an explicit addKeyword when it is false. -/
def matStep {T : Type} (s : GridProperties T) (st : Bool × String) : GridProperties T :=
  if st.1 then (s.getKeyword st.2).2 else (s.addKeyword st.2).2

/-- Run a sequence of materialization steps in order. -/
def runSeq {T : Type} (s : GridProperties T) (steps : List (Bool × String)) :
    GridProperties T :=
  steps.foldl matStep s

/-- Concrete fixture: a 2 by 1 by 1 grid. -/
def exGrid : EclipseGrid := ⟨2, 1, 1⟩

/-- Concrete fixture: a catalog with two keywords. -/
def exCatalog : List (SupportedKeywordInfo Int) :=
  [⟨"PORO", 2, 0, "1"⟩, ⟨"PERMX", 100, 0, "mD"⟩]

/-- Concrete fixture: a freshly constructed registry. -/
def exInit : GridProperties Int := GridProperties.construct exGrid exCatalog

/-- Concrete fixture: the registry after a lazy read of PORO, which holds an
auto-generated instance for PORO. -/
def exAuto : GridProperties Int := (exInit.getKeyword "PORO").2

/-- Concrete fixture: the registry after an explicit add of PERMX, used as a
copy target. -/
def exTgt : GridProperties Int := (exInit.addKeyword "PERMX").2

/-! Helper lemmas about the container primitives. -/

theorem alookup_append_of_some {B : Type} {l1 : List (String × B)} (l2 : List (String × B))
    {k : String} {v : B} (h : alookup l1 k = some v) : alookup (l1 ++ l2) k = some v := by
  induction l1 with
  | nil => simp [alookup] at h
  | cons p rest ih =>
    obtain ⟨k1, v1⟩ := p
    by_cases hk : k = k1
    · simp [alookup, hk] at h ⊢
      exact h
    · simp [alookup, hk] at h ⊢
      exact ih h

theorem alookup_append_of_none {B : Type} {l1 : List (String × B)} (l2 : List (String × B))
    {k : String} (h : alookup l1 k = none) : alookup (l1 ++ l2) k = alookup l2 k := by
  induction l1 with
  | nil => simp [alookup]
  | cons p rest ih =>
    obtain ⟨k1, v1⟩ := p
    by_cases hk : k = k1
    · simp [alookup, hk] at h
    · simp [alookup, hk] at h ⊢
      exact ih h

theorem alookup_concat_self {B : Type} {l : List (String × B)} {k : String} (v : B)
    (h : alookup l k = none) : alookup (l ++ [(k, v)]) k = some v := by
  rw [alookup_append_of_none _ h]
  simp [alookup]

theorem alookup_concat_ne {B : Type} (l : List (String × B)) {k k1 : String} (v : B)
    (h : k ≠ k1) : alookup (l ++ [(k1, v)]) k = alookup l k := by
  cases hl : alookup l k with
  | some v' => exact alookup_append_of_some _ hl
  | none =>
    rw [alookup_append_of_none _ hl]
    simp [alookup, h]

theorem alookup_mem {B : Type} {l : List (String × B)} {k : String} {v : B}
    (h : alookup l k = some v) : (k, v) ∈ l := by
  induction l with
  | nil => simp [alookup] at h
  | cons p rest ih =>
    obtain ⟨k1, v1⟩ := p
    by_cases hk : k = k1
    · simp [alookup, hk] at h
      simp [hk, h]
    · simp [alookup, hk] at h
      exact List.mem_cons_of_mem _ (ih h)

theorem alookup_eq_none_iff {B : Type} {l : List (String × B)} {k : String} :
    alookup l k = none ↔ ∀ p ∈ l, k ≠ p.1 := by
  induction l with
  | nil => simp [alookup]
  | cons p rest ih =>
    obtain ⟨k1, v1⟩ := p
    by_cases hk : k = k1
    · simp [alookup, hk]
    · simp [alookup, hk, ih]

theorem containsStr_iff {l : List String} {k : String} :
    containsStr l k = true ↔ k ∈ l := by
  induction l with
  | nil => simp [containsStr]
  | cons a rest ih =>
    by_cases hk : k = a
    · simp [containsStr, hk]
    · simp [containsStr, hk, ih]

theorem containsStr_eq_false_iff {l : List String} {k : String} :
    containsStr l k = false ↔ k ∉ l := by
  rw [← Bool.not_eq_true, not_iff_not]
  exact containsStr_iff

theorem containsStr_eraseStr_self {l : List String} {k : String} (h : l.Nodup) :
    containsStr (eraseStr l k) k = false := by
  induction l with
  | nil => simp [eraseStr, containsStr]
  | cons a rest ih =>
    by_cases hk : k = a
    · subst hk
      simp [eraseStr]
      rcases hc : containsStr rest k with _ | _
      · rfl
      · exact absurd (containsStr_iff.mp hc) (List.nodup_cons.mp h).1
    · simp [eraseStr, hk, containsStr]
      exact ih (List.nodup_cons.mp h).2

/-! Lemmas about the individual registry operations. -/

theorem hasKeyword_eq_false_of_absent {T : Type} {s : GridProperties T} {kw : String}
    (h : alookup s.properties kw = none) : s.hasKeyword kw = false := by
  simp [GridProperties.hasKeyword, h]

theorem hasKeyword_eq_false_of_auto {T : Type} {s : GridProperties T} {kw : String}
    (h : containsStr s.autoGeneratedProperties kw = true) : s.hasKeyword kw = false := by
  simp [GridProperties.hasKeyword, GridProperties.isAutoGenerated, h]

theorem atProp_eq_ok {T : Type} {s : GridProperties T} {kw : String} {idx : Nat}
    (hidx : alookup s.properties kw = some idx) (hlt : idx < s.property_list.length) :
    s.atProp kw = .ok (s.property_list.get ⟨idx, hlt⟩) := by
  simp [GridProperties.atProp, hidx, List.getElem?_eq_getElem hlt]

theorem addAutoGeneratedKeyword_absent {T : Type} {s : GridProperties T} {kw : String}
    {info : SupportedKeywordInfo T}
    (hinfo : alookup s.supportedKeywords kw = some info)
    (habs : alookup s.properties kw = none) :
    s.addAutoGeneratedKeyword kw = (.ok true,
      { s with
        autoGeneratedProperties := kw :: s.autoGeneratedProperties
        properties := s.properties ++ [(kw, s.property_list.length)]
        property_list := s.property_list ++
          [GridProperty.make s.eclipseGrid.nx s.eclipseGrid.ny s.eclipseGrid.nz info] }) := by
  simp [GridProperties.addAutoGeneratedKeyword, hinfo, habs]

theorem addKeyword_absent {T : Type} {s : GridProperties T} {kw : String}
    {info : SupportedKeywordInfo T}
    (hinfo : alookup s.supportedKeywords kw = some info)
    (habs : alookup s.properties kw = none)
    (hnotauto : containsStr s.autoGeneratedProperties kw = false) :
    s.addKeyword kw = (.ok true,
      { s with
        properties := s.properties ++ [(kw, s.property_list.length)]
        property_list := s.property_list ++
          [GridProperty.make s.eclipseGrid.nx s.eclipseGrid.ny s.eclipseGrid.nz info] }) := by
  simp [GridProperties.addKeyword, hinfo, GridProperties.hasKeyword,
    GridProperties.isAutoGenerated, habs, hnotauto]

theorem addKeyword_promote {T : Type} {s : GridProperties T} {kw : String}
    {info : SupportedKeywordInfo T}
    (hinfo : alookup s.supportedKeywords kw = some info)
    (hpres : (alookup s.properties kw).isSome = true)
    (hauto : containsStr s.autoGeneratedProperties kw = true) :
    s.addKeyword kw = (.ok true,
      { s with
        opmLog := s.opmLog ++ [⟨MessageType.Warning, promotionWarningMsg kw⟩]
        autoGeneratedProperties := eraseStr s.autoGeneratedProperties kw }) := by
  simp [GridProperties.addKeyword, hinfo, GridProperties.hasKeyword,
    GridProperties.isAutoGenerated, hpres, hauto]

theorem getKeyword_present {T : Type} {s : GridProperties T} {kw : String}
    (hsupp : s.supportsKeyword kw = true)
    (hpres : (alookup s.properties kw).isSome = true) :
    s.getKeyword kw = (s.atProp kw, s) := by
  simp [GridProperties.supportsKeyword] at hsupp
  obtain ⟨info, hinfo⟩ := Option.isSome_iff_exists.mp hsupp
  unfold GridProperties.getKeyword
  cases hhk : s.hasKeyword kw with
  | true => simp
  | false => simp [GridProperties.addAutoGeneratedKeyword, hinfo, hpres]

theorem getKeyword_absent_fields {T : Type} {s : GridProperties T} {kw : String}
    {info : SupportedKeywordInfo T}
    (hinfo : alookup s.supportedKeywords kw = some info)
    (habs : alookup s.properties kw = none) :
    ((s.getKeyword kw).2).properties = s.properties ++ [(kw, s.property_list.length)] ∧
    ((s.getKeyword kw).2).autoGeneratedProperties = kw :: s.autoGeneratedProperties ∧
    ((s.getKeyword kw).2).property_list = s.property_list ++
      [GridProperty.make s.eclipseGrid.nx s.eclipseGrid.ny s.eclipseGrid.nz info] ∧
    ((s.getKeyword kw).2).supportedKeywords = s.supportedKeywords ∧
    ((s.getKeyword kw).2).eclipseGrid = s.eclipseGrid ∧
    ((s.getKeyword kw).2).opmLog = s.opmLog ∧
    ((s.getKeyword kw).2).messages = s.messages ∧
    (s.getKeyword kw).1
      = .ok (GridProperty.make s.eclipseGrid.nx s.eclipseGrid.ny s.eclipseGrid.nz info) := by
  have hhk : s.hasKeyword kw = false := hasKeyword_eq_false_of_absent habs
  have h1 := addAutoGeneratedKeyword_absent hinfo habs
  unfold GridProperties.getKeyword
  rw [hhk]
  simp only [Bool.false_eq_true, if_false, h1]
  refine ⟨trivial, trivial, trivial, trivial, trivial, trivial, trivial, ?_⟩
  simp [GridProperties.atProp, alookup_concat_self _ habs, List.getElem?_concat_length]

theorem notInitializedMsg_ne_notSupportedMsg (kw : String) :
    notInitializedMsg kw ≠ notSupportedMsg kw := by
  intro h
  have h2 := congrArg String.length h
  simp only [notInitializedMsg, notSupportedMsg, String.length_append] at h2
  have e2 : (" is supported - but not initialized." : String).length = 36 := rfl
  have e3 : (" is not supported." : String).length = 18 := rfl
  rw [e2, e3] at h2
  omega

/-! Claim C10. -/

/-- C10: the privileged catalog-extension call postAddKeyword is a no-op when
the name is already present in the catalog: emplace inserts only absent keys,
so the existing entry is kept and the whole registry state is unchanged. -/
theorem C10_postAddKeyword_noop {T : Type} (s : GridProperties T) (name : String)
    (defaultValue : T) (postProcessor : Nat) (dimString : String)
    (hpresent : (alookup s.supportedKeywords name).isSome = true) :
    s.postAddKeyword name defaultValue postProcessor dimString = s := by
  simp [GridProperties.postAddKeyword, emplace, hpresent]

/-- Witness for C10 at a concrete registry whose catalog contains PORO. -/
theorem C10_witness :
    (alookup exInit.supportedKeywords "PORO").isSome = true ∧
    exInit.postAddKeyword "PORO" (5 : Int) 1 "x" = exInit :=
  ⟨by decide, C10_postAddKeyword_noop exInit "PORO" 5 1 "x" (by decide)⟩

/-! Claim C7. -/

theorem foldl_emplace_alookup {T : Type} (kws : List (SupportedKeywordInfo T)) :
    ∀ (m : List (String × SupportedKeywordInfo T)) (name : String),
      alookup (kws.foldl (fun m info => emplace m info.keywordName info) m) name
        = match alookup m name with
          | some v => some v
          | none => kws.find? (fun info => decide (info.keywordName = name)) := by
  induction kws with
  | nil =>
    intro m name
    simp only [List.foldl_nil]
    cases h : alookup m name <;> simp [h]
  | cons i rest ih =>
    intro m name
    rw [List.foldl_cons, ih]
    by_cases hn : name = i.keywordName
    · cases hm : alookup m name with
      | some v =>
        have hstep : alookup (emplace m i.keywordName i) name = some v := by
          unfold emplace
          by_cases hp : (alookup m i.keywordName).isSome = true
          · simp only [hp, if_true]
            exact hm
          · rw [← hn, hm] at hp
            simp at hp
        rw [hstep]
      | none =>
        have hps : alookup m i.keywordName = none := by rw [← hn]; exact hm
        have hstep : alookup (emplace m i.keywordName i) name = some i := by
          unfold emplace
          rw [hps]
          simp only [Option.isSome_none, Bool.false_eq_true, if_false]
          rw [hn]
          exact alookup_concat_self _ hps
        have hfind : List.find? (fun info => decide (info.keywordName = name)) (i :: rest)
            = some i := List.find?_cons_of_pos _ (by simp [hn])
        rw [hstep]
        simp [hfind]
    · have hpred : (fun info => decide (info.keywordName = name)) i = false := by
        simp only [decide_eq_false_iff_not]
        exact fun h => hn h.symm
      have hstep : alookup (emplace m i.keywordName i) name = alookup m name := by
        unfold emplace
        by_cases hp : (alookup m i.keywordName).isSome = true
        · simp only [hp, if_true]
        · simp only [Bool.not_eq_true] at hp
          simp only [hp, Bool.false_eq_true, if_false]
          exact alookup_concat_ne _ _ hn
      have hfind : List.find? (fun info => decide (info.keywordName = name)) (i :: rest)
          = List.find? (fun info => decide (info.keywordName = name)) rest :=
        List.find?_cons_of_neg _ (by simp [hpred])
      rw [hstep]
      cases hm : alookup m name with
      | some v => rfl
      | none => simp [hfind]

/-- C7 (amended): when the constructor input list contains duplicate keyword
names, the catalog entry used afterwards is the FIRST descriptor with that
name; later duplicates are silently ignored (std::unordered_map::emplace does
not overwrite). -/
theorem C7_constructor_first_wins {T : Type} (grid : EclipseGrid)
    (kws : List (SupportedKeywordInfo T)) (name : String) :
    alookup (GridProperties.construct grid kws).supportedKeywords name
      = kws.find? (fun info => decide (info.keywordName = name)) := by
  show alookup (kws.foldl (fun m info => emplace m info.keywordName info) []) name = _
  rw [foldl_emplace_alookup]
  rfl

/-- C7 counterexample: with two descriptors both named A, default 1 first and
default 2 second, the catalog entry afterwards is the first descriptor and not
the last one, and an explicit addKeyword materializes with default 1, refuting
the last-wins reading. -/
theorem C7_counterexample :
    alookup (GridProperties.construct (T := Int) ⟨1, 1, 1⟩
        [⟨"A", 1, 0, "d"⟩, ⟨"A", 2, 0, "d"⟩]).supportedKeywords "A"
      = some ⟨"A", 1, 0, "d"⟩ ∧
    alookup (GridProperties.construct (T := Int) ⟨1, 1, 1⟩
        [⟨"A", 1, 0, "d"⟩, ⟨"A", 2, 0, "d"⟩]).supportedKeywords "A"
      ≠ some ⟨"A", 2, 0, "d"⟩ ∧
    ((GridProperties.construct (T := Int) ⟨1, 1, 1⟩
        [⟨"A", 1, 0, "d"⟩, ⟨"A", 2, 0, "d"⟩]).addKeyword "A").2.property_list
      = [⟨⟨"A", 1, 0, "d"⟩, [1]⟩] := by
  refine ⟨by decide, by decide, by decide⟩

/-! Claim C3. -/

/-- C3: for a supported keyword with no existing property instance, calling
addKeyword twice returns true then false, the second call leaves the state
unchanged, size grows by exactly one, and exactly one map entry for the name
exists afterwards. -/
theorem C3_addKeyword_idempotent {T : Type} (s : GridProperties T) (kw : String)
    (hsupp : s.supportsKeyword kw = true)
    (habs : alookup s.properties kw = none)
    (hnotauto : containsStr s.autoGeneratedProperties kw = false) :
    (s.addKeyword kw).1 = .ok true ∧
    (((s.addKeyword kw).2).addKeyword kw).1 = .ok false ∧
    (((s.addKeyword kw).2).addKeyword kw).2 = (s.addKeyword kw).2 ∧
    ((s.addKeyword kw).2).size = s.size + 1 ∧
    ((s.addKeyword kw).2).properties.countP (fun p => decide (p.1 = kw)) = 1 := by
  simp only [GridProperties.supportsKeyword] at hsupp
  obtain ⟨info, hinfo⟩ := Option.isSome_iff_exists.mp hsupp
  have h1 := addKeyword_absent hinfo habs hnotauto
  have hpres1 : alookup (s.properties ++ [(kw, s.property_list.length)]) kw
      = some s.property_list.length := alookup_concat_self _ habs
  have hcount0 : s.properties.countP (fun p => decide (p.1 = kw)) = 0 := by
    rw [List.countP_eq_zero]
    intro p hp
    have hne := alookup_eq_none_iff.mp habs p hp
    simp [Ne.symm hne]
  rw [h1]
  refine ⟨rfl, ?_, ?_, ?_, ?_⟩
  · simp [GridProperties.addKeyword, hinfo, GridProperties.hasKeyword,
      GridProperties.isAutoGenerated, hpres1, hnotauto]
  · simp [GridProperties.addKeyword, hinfo, GridProperties.hasKeyword,
      GridProperties.isAutoGenerated, hpres1, hnotauto]
  · simp [GridProperties.size]
  · simp [List.countP_append, hcount0, List.countP_cons]

/-- Witness for C3 on the fresh registry and the keyword PORO. -/
theorem C3_witness :
    exInit.supportsKeyword "PORO" = true ∧
    alookup exInit.properties "PORO" = none ∧
    containsStr exInit.autoGeneratedProperties "PORO" = false ∧
    ((exInit.addKeyword "PORO").1 = .ok true ∧
     (((exInit.addKeyword "PORO").2).addKeyword "PORO").1 = .ok false ∧
     (((exInit.addKeyword "PORO").2).addKeyword "PORO").2 = (exInit.addKeyword "PORO").2 ∧
     ((exInit.addKeyword "PORO").2).size = exInit.size + 1 ∧
     ((exInit.addKeyword "PORO").2).properties.countP (fun p => decide (p.1 = "PORO")) = 1) :=
  ⟨by decide, by decide, by decide,
    C3_addKeyword_idempotent exInit "PORO" (by decide) (by decide) (by decide)⟩

/-! Claim C2. -/

/-- C2: hasKeyword is true exactly when a property instance exists for the
name and it is not tagged auto-generated; it is false when no instance
exists, and after a lazy getKeyword has materialized an auto-generated
instance the instance exists yet hasKeyword is still false. -/
theorem C2_hasKeyword_explicit_only {T : Type} (s : GridProperties T) (kw : String)
    (hsupp : s.supportsKeyword kw = true)
    (habs : alookup s.properties kw = none) :
    (∀ (s1 : GridProperties T) (k : String),
        s1.hasKeyword k = true ↔
          ((alookup s1.properties k).isSome = true ∧ k ∉ s1.autoGeneratedProperties)) ∧
    s.hasKeyword kw = false ∧
    (alookup ((s.getKeyword kw).2).properties kw).isSome = true ∧
    ((s.getKeyword kw).2).isAutoGenerated kw = true ∧
    ((s.getKeyword kw).2).hasKeyword kw = false := by
  simp only [GridProperties.supportsKeyword] at hsupp
  obtain ⟨info, hinfo⟩ := Option.isSome_iff_exists.mp hsupp
  obtain ⟨hprops, hauto, _hlist, _hsk, _, _, _, _⟩ := getKeyword_absent_fields hinfo habs
  refine ⟨?_, hasKeyword_eq_false_of_absent habs, ?_, ?_, ?_⟩
  · intro s1 k
    simp [GridProperties.hasKeyword, GridProperties.isAutoGenerated,
      containsStr_eq_false_iff]
  · rw [hprops, alookup_concat_self _ habs]
    rfl
  · rw [GridProperties.isAutoGenerated, hauto]
    simp [containsStr]
  · apply hasKeyword_eq_false_of_auto
    rw [hauto]
    simp [containsStr]

/-- Witness for C2: a lazy read of PORO on the fresh registry. -/
theorem C2_witness :
    exInit.supportsKeyword "PORO" = true ∧
    alookup exInit.properties "PORO" = none ∧
    ((∀ (s1 : GridProperties Int) (k : String),
        s1.hasKeyword k = true ↔
          ((alookup s1.properties k).isSome = true ∧ k ∉ s1.autoGeneratedProperties)) ∧
     exInit.hasKeyword "PORO" = false ∧
     (alookup ((exInit.getKeyword "PORO").2).properties "PORO").isSome = true ∧
     ((exInit.getKeyword "PORO").2).isAutoGenerated "PORO" = true ∧
     ((exInit.getKeyword "PORO").2).hasKeyword "PORO" = false) :=
  ⟨by decide, by decide,
    C2_hasKeyword_explicit_only exInit "PORO" (by decide) (by decide)⟩

/-! Claim C5. -/

/-- C5: getInitializedKeyword never materializes (it is a pure read of the
state); on a supported name without an explicit instance (absent or only
auto-generated) it fails with the supported-but-not-initialized message, on
an uncatalogued name it fails with the distinct not-supported message, and
when an explicit instance exists it returns that instance. -/
theorem C5_getInitializedKeyword {T : Type} (s : GridProperties T) (kw : String)
    (hWf : s.Wf) :
    (s.supportsKeyword kw = true → s.hasKeyword kw = false →
        s.getInitializedKeyword kw = .error (.invalidArgument (notInitializedMsg kw))) ∧
    (s.supportsKeyword kw = false →
        s.getInitializedKeyword kw = .error (.invalidArgument (notSupportedMsg kw))) ∧
    (s.hasKeyword kw = true →
        ∃ idx, alookup s.properties kw = some idx ∧
          ∃ hlt : idx < s.property_list.length,
            s.getInitializedKeyword kw = .ok (s.property_list.get ⟨idx, hlt⟩)) ∧
    notInitializedMsg kw ≠ notSupportedMsg kw := by
  refine ⟨?_, ?_, ?_, notInitializedMsg_ne_notSupportedMsg kw⟩
  · intro h1 h2
    simp [GridProperties.getInitializedKeyword, h1, h2]
  · intro h
    have habs : alookup s.properties kw = none := by
      cases hp : alookup s.properties kw with
      | none => rfl
      | some idx =>
        have hm := (hWf.1 _ (alookup_mem hp)).1
        rw [GridProperties.supportsKeyword] at h
        rw [h] at hm
        simp at hm
    simp [GridProperties.getInitializedKeyword, hasKeyword_eq_false_of_absent habs, h]
  · intro h
    have hpres : (alookup s.properties kw).isSome = true := by
      simp only [GridProperties.hasKeyword, Bool.and_eq_true] at h
      exact h.1
    obtain ⟨idx, hidx⟩ := Option.isSome_iff_exists.mp hpres
    have hlt := (hWf.1 _ (alookup_mem hidx)).2
    refine ⟨idx, hidx, hlt, ?_⟩
    simp [GridProperties.getInitializedKeyword, h, atProp_eq_ok hidx hlt]

/-- Witness for C5 on the registry holding an auto-generated PORO instance. -/
theorem C5_witness :
    exAuto.Wf ∧
    ((exAuto.supportsKeyword "PORO" = true → exAuto.hasKeyword "PORO" = false →
        exAuto.getInitializedKeyword "PORO"
          = .error (.invalidArgument (notInitializedMsg "PORO"))) ∧
     (exAuto.supportsKeyword "PORO" = false →
        exAuto.getInitializedKeyword "PORO"
          = .error (.invalidArgument (notSupportedMsg "PORO"))) ∧
     (exAuto.hasKeyword "PORO" = true →
        ∃ idx, alookup exAuto.properties "PORO" = some idx ∧
          ∃ hlt : idx < exAuto.property_list.length,
            exAuto.getInitializedKeyword "PORO"
              = .ok (exAuto.property_list.get ⟨idx, hlt⟩)) ∧
     notInitializedMsg "PORO" ≠ notSupportedMsg "PORO") :=
  ⟨by decide, C5_getInitializedKeyword exAuto "PORO" (by decide)⟩

/-! Claim C6. -/

/-- C6: for a name not in the catalog, supportsKeyword and hasKeyword are
false, and getKeyword, getInitializedKeyword, addKeyword and
getOrCreateProperty all fail with the respective unsupported-keyword message
while returning the registry state unchanged. -/
theorem C6_unsupported {T : Type} (s : GridProperties T) (kw : String)
    (hWf : s.Wf) (hunsupp : s.supportsKeyword kw = false) :
    s.hasKeyword kw = false ∧
    s.getKeyword kw = (.error (.invalidArgument (unsupportedInContainerMsg kw)), s) ∧
    s.getInitializedKeyword kw = .error (.invalidArgument (notSupportedMsg kw)) ∧
    s.addKeyword kw = (.error (.invalidArgument (unsupportedInContainerMsg kw)), s) ∧
    s.getOrCreateProperty kw = (.error (.invalidArgument (unsupportedInContainerMsg kw)), s) := by
  have hnone : alookup s.supportedKeywords kw = none := by
    cases h : alookup s.supportedKeywords kw with
    | none => rfl
    | some v =>
      rw [GridProperties.supportsKeyword, h] at hunsupp
      simp at hunsupp
  have habs : alookup s.properties kw = none := by
    cases hp : alookup s.properties kw with
    | none => rfl
    | some idx =>
      have hm := (hWf.1 _ (alookup_mem hp)).1
      rw [hnone] at hm
      simp at hm
  have hk : s.hasKeyword kw = false := hasKeyword_eq_false_of_absent habs
  refine ⟨hk, ?_, ?_, ?_, ?_⟩
  · simp [GridProperties.getKeyword, hk, GridProperties.addAutoGeneratedKeyword, hnone]
  · simp [GridProperties.getInitializedKeyword, hk, hunsupp]
  · simp [GridProperties.addKeyword, hnone]
  · simp [GridProperties.getOrCreateProperty, hk, GridProperties.addKeyword, hnone]

/-- Witness for C6 with an uncatalogued name on the fresh registry. -/
theorem C6_witness :
    exInit.Wf ∧
    exInit.supportsKeyword "BOGUS" = false ∧
    (exInit.hasKeyword "BOGUS" = false ∧
     exInit.getKeyword "BOGUS"
       = (.error (.invalidArgument (unsupportedInContainerMsg "BOGUS")), exInit) ∧
     exInit.getInitializedKeyword "BOGUS"
       = .error (.invalidArgument (notSupportedMsg "BOGUS")) ∧
     exInit.addKeyword "BOGUS"
       = (.error (.invalidArgument (unsupportedInContainerMsg "BOGUS")), exInit) ∧
     exInit.getOrCreateProperty "BOGUS"
       = (.error (.invalidArgument (unsupportedInContainerMsg "BOGUS")), exInit)) :=
  ⟨by decide, by decide, C6_unsupported exInit "BOGUS" (by decide) (by decide)⟩

/-! Claim C1. -/

/-- C1: addKeyword on a catalogued name holding an auto-generated instance
returns true, keeps the very same property instance with its element values
unchanged (both the name-to-index map and the creation-order arena are
untouched, so the instance and its values are preserved), makes hasKeyword
true, and appends exactly one warning diagnostic naming the keyword to the
OpmLog sink (the member MessageContainer is untouched, as in the source,
where the warning goes to OpmLog::addMessage). -/
theorem C1_addKeyword_promotes {T : Type} (s : GridProperties T) (kw : String)
    (hWf : s.Wf) (hsupp : s.supportsKeyword kw = true)
    (hauto : s.isAutoGenerated kw = true) :
    (s.addKeyword kw).1 = .ok true ∧
    ((s.addKeyword kw).2).properties = s.properties ∧
    ((s.addKeyword kw).2).property_list = s.property_list ∧
    ((s.addKeyword kw).2).hasKeyword kw = true ∧
    ((s.addKeyword kw).2).opmLog
      = s.opmLog ++ [⟨MessageType.Warning, promotionWarningMsg kw⟩] ∧
    ((s.addKeyword kw).2).messages = s.messages := by
  simp only [GridProperties.supportsKeyword] at hsupp
  obtain ⟨info, hinfo⟩ := Option.isSome_iff_exists.mp hsupp
  simp only [GridProperties.isAutoGenerated] at hauto
  have hpres : (alookup s.properties kw).isSome = true :=
    hWf.2.2.1 kw (containsStr_iff.mp hauto)
  have h1 := addKeyword_promote hinfo hpres hauto
  rw [h1]
  refine ⟨rfl, rfl, rfl, ?_, rfl, rfl⟩
  simp [GridProperties.hasKeyword, GridProperties.isAutoGenerated, hpres,
    containsStr_eraseStr_self hWf.2.2.2.1]

/-- Witness for C1 on the registry holding an auto-generated PORO instance. -/
theorem C1_witness :
    exAuto.Wf ∧
    exAuto.supportsKeyword "PORO" = true ∧
    exAuto.isAutoGenerated "PORO" = true ∧
    ((exAuto.addKeyword "PORO").1 = .ok true ∧
     ((exAuto.addKeyword "PORO").2).properties = exAuto.properties ∧
     ((exAuto.addKeyword "PORO").2).property_list = exAuto.property_list ∧
     ((exAuto.addKeyword "PORO").2).hasKeyword "PORO" = true ∧
     ((exAuto.addKeyword "PORO").2).opmLog
       = exAuto.opmLog ++ [⟨MessageType.Warning, promotionWarningMsg "PORO"⟩] ∧
     ((exAuto.addKeyword "PORO").2).messages = exAuto.messages) :=
  ⟨by decide, by decide, by decide,
    C1_addKeyword_promotes exAuto "PORO" (by decide) (by decide) (by decide)⟩

/-! Claim C9. -/

/-- C9: getOrCreateProperty on a keyword holding only an auto-generated
instance promotes it to explicit: hasKeyword becomes true, exactly one
promotion warning is appended to the OpmLog sink, and the returned handle is
the pre-existing instance with its values preserved (the name map and arena
are unchanged). -/
theorem C9_getOrCreate_promotes {T : Type} (s : GridProperties T) (kw : String)
    (hWf : s.Wf) (hsupp : s.supportsKeyword kw = true)
    (hauto : s.isAutoGenerated kw = true) :
    ∃ idx, alookup s.properties kw = some idx ∧
      ∃ hlt : idx < s.property_list.length,
        (s.getOrCreateProperty kw).1 = .ok (s.property_list.get ⟨idx, hlt⟩) ∧
        ((s.getOrCreateProperty kw).2).properties = s.properties ∧
        ((s.getOrCreateProperty kw).2).property_list = s.property_list ∧
        ((s.getOrCreateProperty kw).2).hasKeyword kw = true ∧
        ((s.getOrCreateProperty kw).2).opmLog
          = s.opmLog ++ [⟨MessageType.Warning, promotionWarningMsg kw⟩] ∧
        ((s.getOrCreateProperty kw).2).messages = s.messages := by
  simp only [GridProperties.supportsKeyword] at hsupp
  obtain ⟨info, hinfo⟩ := Option.isSome_iff_exists.mp hsupp
  simp only [GridProperties.isAutoGenerated] at hauto
  have hpres : (alookup s.properties kw).isSome = true :=
    hWf.2.2.1 kw (containsStr_iff.mp hauto)
  obtain ⟨idx, hidx⟩ := Option.isSome_iff_exists.mp hpres
  have hlt := (hWf.1 _ (alookup_mem hidx)).2
  have hk0 : s.hasKeyword kw = false := hasKeyword_eq_false_of_auto hauto
  have hpromote := addKeyword_promote hinfo hpres hauto
  have hk1 : ({ s with
      opmLog := s.opmLog ++ [⟨MessageType.Warning, promotionWarningMsg kw⟩]
      autoGeneratedProperties := eraseStr s.autoGeneratedProperties kw }
        : GridProperties T).hasKeyword kw = true := by
    simp [GridProperties.hasKeyword, GridProperties.isAutoGenerated, hpres,
      containsStr_eraseStr_self hWf.2.2.2.1]
  refine ⟨idx, hidx, hlt, ?_⟩
  unfold GridProperties.getOrCreateProperty
  rw [hk0]
  simp only [Bool.false_eq_true, if_false, hpromote]
  unfold GridProperties.getKeyword
  rw [hk1]
  simp only [if_true]
  refine ⟨?_, by trivial, by trivial, hk1, by trivial, by trivial⟩
  show GridProperties.atProp _ kw = _
  simp [GridProperties.atProp, hidx, List.getElem?_eq_getElem hlt]

/-- Witness for C9 on the registry holding an auto-generated PORO instance. -/
theorem C9_witness :
    exAuto.Wf ∧
    exAuto.supportsKeyword "PORO" = true ∧
    exAuto.isAutoGenerated "PORO" = true ∧
    (∃ idx, alookup exAuto.properties "PORO" = some idx ∧
      ∃ hlt : idx < exAuto.property_list.length,
        (exAuto.getOrCreateProperty "PORO").1 = .ok (exAuto.property_list.get ⟨idx, hlt⟩) ∧
        ((exAuto.getOrCreateProperty "PORO").2).properties = exAuto.properties ∧
        ((exAuto.getOrCreateProperty "PORO").2).property_list = exAuto.property_list ∧
        ((exAuto.getOrCreateProperty "PORO").2).hasKeyword "PORO" = true ∧
        ((exAuto.getOrCreateProperty "PORO").2).opmLog
          = exAuto.opmLog ++ [⟨MessageType.Warning, promotionWarningMsg "PORO"⟩] ∧
        ((exAuto.getOrCreateProperty "PORO").2).messages = exAuto.messages) :=
  ⟨by decide, by decide, by decide,
    C9_getOrCreate_promotes exAuto "PORO" (by decide) (by decide) (by decide)⟩

/-! Claim C4. -/

theorem matStep_absent {T : Type} {s : GridProperties T} {st : Bool × String}
    {info : SupportedKeywordInfo T}
    (hinfo : alookup s.supportedKeywords st.2 = some info)
    (habs : alookup s.properties st.2 = none)
    (hnotauto : containsStr s.autoGeneratedProperties st.2 = false) :
    (matStep s st).supportedKeywords = s.supportedKeywords ∧
    (matStep s st).properties = s.properties ++ [(st.2, s.property_list.length)] ∧
    (matStep s st).property_list.length = s.property_list.length + 1 ∧
    (∀ kw, kw ≠ st.2 →
      containsStr (matStep s st).autoGeneratedProperties kw
        = containsStr s.autoGeneratedProperties kw) := by
  unfold matStep
  cases hb : st.1 with
  | true =>
    simp only [if_true]
    obtain ⟨hprops, hauto, hlist, hsk, _, _, _, _⟩ := getKeyword_absent_fields hinfo habs
    refine ⟨hsk, hprops, ?_, ?_⟩
    · rw [hlist]
      simp
    · intro kw hne
      rw [hauto]
      simp [containsStr, hne]
  | false =>
    simp only [Bool.false_eq_true, if_false]
    rw [addKeyword_absent hinfo habs hnotauto]
    refine ⟨rfl, rfl, by simp, fun kw _ => rfl⟩

theorem runSeq_spec {T : Type} (steps : List (Bool × String)) :
    ∀ (s : GridProperties T),
      (∀ st ∈ steps, (alookup s.supportedKeywords st.2).isSome = true) →
      (List.map Prod.snd steps).Nodup →
      (∀ st ∈ steps, alookup s.properties st.2 = none) →
      (∀ st ∈ steps, containsStr s.autoGeneratedProperties st.2 = false) →
      (runSeq s steps).supportedKeywords = s.supportedKeywords ∧
      (runSeq s steps).property_list.length = s.property_list.length + steps.length ∧
      (∀ kw, (∀ st ∈ steps, st.2 ≠ kw) →
          alookup (runSeq s steps).properties kw = alookup s.properties kw) ∧
      (∀ i (h : i < steps.length),
          alookup (runSeq s steps).properties (steps.get ⟨i, h⟩).2
            = some (s.property_list.length + i)) := by
  induction steps with
  | nil =>
    intro s _ _ _ _
    exact ⟨rfl, rfl, fun kw _ => rfl, fun i h => absurd h (Nat.not_lt_zero i)⟩
  | cons st rest ih =>
    intro s hsupp hnodup habs hnotauto
    obtain ⟨info, hinfo⟩ :=
      Option.isSome_iff_exists.mp (hsupp st (List.mem_cons_self _ _))
    have habs0 := habs st (List.mem_cons_self _ _)
    have hna0 := hnotauto st (List.mem_cons_self _ _)
    obtain ⟨hsk, hprops, hlen, hauto⟩ := matStep_absent hinfo habs0 hna0
    have hrun : runSeq s (st :: rest) = runSeq (matStep s st) rest := rfl
    simp only [List.map_cons, List.nodup_cons] at hnodup
    have hhead : ∀ st' ∈ rest, st'.2 ≠ st.2 := by
      intro st' hm heq
      exact hnodup.1 (heq ▸ List.mem_map_of_mem Prod.snd hm)
    have hsupp1 : ∀ st' ∈ rest, (alookup (matStep s st).supportedKeywords st'.2).isSome = true := by
      intro st' hm
      rw [hsk]
      exact hsupp st' (List.mem_cons_of_mem _ hm)
    have habs1 : ∀ st' ∈ rest, alookup (matStep s st).properties st'.2 = none := by
      intro st' hm
      rw [hprops, alookup_concat_ne _ _ (hhead st' hm)]
      exact habs st' (List.mem_cons_of_mem _ hm)
    have hnotauto1 : ∀ st' ∈ rest, containsStr (matStep s st).autoGeneratedProperties st'.2 = false := by
      intro st' hm
      rw [hauto st'.2 (hhead st' hm)]
      exact hnotauto st' (List.mem_cons_of_mem _ hm)
    obtain ⟨ih1, ih2, ih3, ih4⟩ := ih (matStep s st) hsupp1 hnodup.2 habs1 hnotauto1
    refine ⟨?_, ?_, ?_, ?_⟩
    · rw [hrun, ih1, hsk]
    · rw [hrun, ih2, hlen]
      simp only [List.length_cons]
      omega
    · intro kw hne
      rw [hrun, ih3 kw (fun st' hm => hne st' (List.mem_cons_of_mem _ hm)), hprops,
        alookup_concat_ne _ _ (Ne.symm (hne st (List.mem_cons_self _ _)))]
    · intro i h
      cases i with
      | zero =>
        rw [hrun]
        have hget : ((st :: rest).get ⟨0, h⟩) = st := rfl
        rw [hget, ih3 st.2 hhead, hprops, alookup_concat_self _ habs0]
        simp
      | succ i' =>
        rw [hrun]
        have h' : i' < rest.length := by
          simp only [List.length_cons] at h
          omega
        have hget : ((st :: rest).get ⟨i' + 1, h⟩) = rest.get ⟨i', h'⟩ := rfl
        rw [hget, ih4 i' h', hlen]
        congr 1
        omega

/-- C4: starting from a freshly constructed registry, after any sequence of N
materializations of distinct supported keywords (each lazy via getKeyword or
explicit via addKeyword, in order), size() equals N, the i-th positional
access returns the same instance as the by-name access for the i-th keyword
(whose map entry is exactly index i, and whose by-name read leaves the state
unchanged), and every positional access at an index at or beyond size fails
with the invalid-index error. -/
theorem C4_creation_order {T : Type} (grid : EclipseGrid)
    (catalog : List (SupportedKeywordInfo T)) (steps : List (Bool × String))
    (hsupp : ∀ st ∈ steps,
        (GridProperties.construct grid catalog).supportsKeyword st.2 = true)
    (hnodup : (List.map Prod.snd steps).Nodup) :
    (runSeq (GridProperties.construct grid catalog) steps).size = steps.length ∧
    (∀ i (h : i < steps.length),
        alookup (runSeq (GridProperties.construct grid catalog) steps).properties
            (steps.get ⟨i, h⟩).2 = some i ∧
        (runSeq (GridProperties.construct grid catalog) steps).getKeywordByIndex i
          = ((runSeq (GridProperties.construct grid catalog) steps).getKeyword
              (steps.get ⟨i, h⟩).2).1 ∧
        ((runSeq (GridProperties.construct grid catalog) steps).getKeyword
            (steps.get ⟨i, h⟩).2).2
          = runSeq (GridProperties.construct grid catalog) steps) ∧
    (∀ j, steps.length ≤ j →
        (runSeq (GridProperties.construct grid catalog) steps).getKeywordByIndex j
          = .error (.invalidArgument invalidIndexMsg)) := by
  simp only [GridProperties.supportsKeyword] at hsupp
  obtain ⟨h1, h2, _h3, h4⟩ :=
    runSeq_spec steps (GridProperties.construct grid catalog) hsupp hnodup
      (fun st _ => rfl) (fun st _ => rfl)
  have hlenN : (runSeq (GridProperties.construct grid catalog) steps).property_list.length
      = steps.length := by
    rw [h2]
    simp [GridProperties.construct]
  refine ⟨hlenN, ?_, ?_⟩
  · intro i h
    have hidx : alookup (runSeq (GridProperties.construct grid catalog) steps).properties
        (steps.get ⟨i, h⟩).2 = some i := by
      have := h4 i h
      simpa [GridProperties.construct] using this
    have hlt : i < (runSeq (GridProperties.construct grid catalog) steps).property_list.length := by
      rw [hlenN]; exact h
    have hsupN : (runSeq (GridProperties.construct grid catalog) steps).supportsKeyword
        (steps.get ⟨i, h⟩).2 = true := by
      rw [GridProperties.supportsKeyword, h1]
      exact hsupp _ (List.get_mem steps i h)
    have hpresN : (alookup (runSeq (GridProperties.construct grid catalog) steps).properties
        (steps.get ⟨i, h⟩).2).isSome = true := by
      rw [hidx]; rfl
    have hgk := getKeyword_present hsupN hpresN
    refine ⟨hidx, ?_, by rw [hgk]⟩
    rw [hgk]
    show _ = GridProperties.atProp _ _
    rw [atProp_eq_ok hidx hlt, GridProperties.getKeywordByIndex]
    rw [dif_pos (show i < (runSeq (GridProperties.construct grid catalog) steps).size from hlt)]
  · intro j hj
    rw [GridProperties.getKeywordByIndex,
      dif_neg (show ¬ j < (runSeq (GridProperties.construct grid catalog) steps).size by
        rw [show (runSeq (GridProperties.construct grid catalog) steps).size
            = steps.length from hlenN]
        omega)]

/-- Witness for C4: a lazy PORO read followed by an explicit PERMX add. -/
theorem C4_witness :
    (∀ st ∈ [(true, "PORO"), (false, "PERMX")],
        (GridProperties.construct exGrid exCatalog).supportsKeyword st.2 = true) ∧
    (List.map Prod.snd [(true, "PORO"), (false, "PERMX")]).Nodup ∧
    ((runSeq (GridProperties.construct exGrid exCatalog)
        [(true, "PORO"), (false, "PERMX")]).size = 2 ∧
     (∀ i (h : i < ([(true, "PORO"), (false, "PERMX")] : List (Bool × String)).length),
        alookup (runSeq (GridProperties.construct exGrid exCatalog)
            [(true, "PORO"), (false, "PERMX")]).properties
            (([(true, "PORO"), (false, "PERMX")] : List (Bool × String)).get ⟨i, h⟩).2
          = some i ∧
        (runSeq (GridProperties.construct exGrid exCatalog)
            [(true, "PORO"), (false, "PERMX")]).getKeywordByIndex i
          = ((runSeq (GridProperties.construct exGrid exCatalog)
              [(true, "PORO"), (false, "PERMX")]).getKeyword
              (([(true, "PORO"), (false, "PERMX")] : List (Bool × String)).get ⟨i, h⟩).2).1 ∧
        ((runSeq (GridProperties.construct exGrid exCatalog)
            [(true, "PORO"), (false, "PERMX")]).getKeyword
            (([(true, "PORO"), (false, "PERMX")] : List (Bool × String)).get ⟨i, h⟩).2).2
          = runSeq (GridProperties.construct exGrid exCatalog)
              [(true, "PORO"), (false, "PERMX")]) ∧
     (∀ j, ([(true, "PORO"), (false, "PERMX")] : List (Bool × String)).length ≤ j →
        (runSeq (GridProperties.construct exGrid exCatalog)
            [(true, "PORO"), (false, "PERMX")]).getKeywordByIndex j
          = .error (.invalidArgument invalidIndexMsg))) :=
  ⟨by decide, by decide,
    C4_creation_order exGrid exCatalog [(true, "PORO"), (false, "PERMX")]
      (by decide) (by decide)⟩

/-! Claim C8. -/

theorem copyRegion_get? {T : Type} (box : Box) (src : List T) :
    ∀ (tgt : List T) (k i : Nat),
      (copyRegion box src tgt k).get? i
        = (tgt.get? i).map
            (fun v => if box.cells.contains (k + i) then src.getD (k + i) v else v) := by
  intro tgt
  induction tgt with
  | nil =>
    intro k i
    simp [copyRegion]
  | cons v rest ih =>
    intro k i
    cases i with
    | zero => simp [copyRegion]
    | succ i' =>
      show (copyRegion box src rest (k + 1)).get? i' = _
      rw [ih (k + 1) i']
      have harith : k + 1 + i' = k + (i' + 1) := by omega
      rw [harith]
      rfl

theorem copyFrom_get? {T : Type} (tgt src : GridProperty T) (box : Box) (i : Nat)
    (hlen : src.values.length = tgt.values.length) (hi : i < tgt.values.length) :
    (tgt.copyFrom src box).values.get? i
      = if box.cells.contains i then src.values.get? i else tgt.values.get? i := by
  have hi' : i < src.values.length := by omega
  show (copyRegion box src.values tgt.values 0).get? i = _
  rw [copyRegion_get?]
  simp only [Nat.zero_add]
  rw [List.get?_eq_get hi, List.get?_eq_get hi']
  cases hc : box.cells.contains i
  · simp
  · simp only [hc, if_true, Option.map_some']
    rw [List.getD_eq_getElem?_getD, List.getElem?_eq_getElem hi']
    rfl

theorem getOrCreate_present {T : Type} {s : GridProperties T} {kw : String}
    {info : SupportedKeywordInfo T}
    (hinfo : alookup s.supportedKeywords kw = some info)
    (hpres : (alookup s.properties kw).isSome = true)
    (hnodup : s.autoGeneratedProperties.Nodup) :
    ∃ s2 : GridProperties T, s.getOrCreateProperty kw = (s2.atProp kw, s2) ∧
      s2.properties = s.properties ∧
      s2.property_list = s.property_list ∧
      s2.supportedKeywords = s.supportedKeywords ∧
      s2.eclipseGrid = s.eclipseGrid := by
  by_cases hauto : containsStr s.autoGeneratedProperties kw = true
  · have hk0 : s.hasKeyword kw = false := hasKeyword_eq_false_of_auto hauto
    have hpromote := addKeyword_promote hinfo hpres hauto
    have hk1 : ({ s with
        opmLog := s.opmLog ++ [⟨MessageType.Warning, promotionWarningMsg kw⟩]
        autoGeneratedProperties := eraseStr s.autoGeneratedProperties kw }
          : GridProperties T).hasKeyword kw = true := by
      simp [GridProperties.hasKeyword, GridProperties.isAutoGenerated, hpres,
        containsStr_eraseStr_self hnodup]
    refine ⟨{ s with
        opmLog := s.opmLog ++ [⟨MessageType.Warning, promotionWarningMsg kw⟩]
        autoGeneratedProperties := eraseStr s.autoGeneratedProperties kw },
      ?_, rfl, rfl, rfl, rfl⟩
    unfold GridProperties.getOrCreateProperty
    rw [hk0]
    simp only [Bool.false_eq_true, if_false, hpromote]
    unfold GridProperties.getKeyword
    rw [hk1]
    simp only [if_true]
  · have hauto' : containsStr s.autoGeneratedProperties kw = false := by
      cases h : containsStr s.autoGeneratedProperties kw
      · rfl
      · exact absurd h hauto
    have hk : s.hasKeyword kw = true := by
      simp [GridProperties.hasKeyword, GridProperties.isAutoGenerated, hpres, hauto']
    refine ⟨s, ?_, rfl, rfl, rfl, rfl⟩
    unfold GridProperties.getOrCreateProperty GridProperties.getKeyword
    rw [hk]
    simp only [if_true]

theorem copyKeyword_shape {T : Type} {s : GridProperties T} {src tgt : String}
    {box : Box} {ti : Nat}
    (hWf : s.Wf)
    (hsuppS : s.supportsKeyword src = true)
    (hsuppT : s.supportsKeyword tgt = true)
    (hti : alookup s.properties tgt = some ti) :
    ∃ (si : Nat) (s2 : GridProperties T) (srcP tgtP0 : GridProperty T),
      alookup s2.properties src = some si ∧
      alookup s2.properties tgt = some ti ∧
      s2.property_list.get? si = some srcP ∧
      s2.property_list.get? ti = some tgtP0 ∧
      s.property_list.get? ti = some tgtP0 ∧
      srcP.values.length = s.numCells ∧
      tgtP0.values.length = s.numCells ∧
      s.copyKeyword src tgt box
        = (.ok (), { s2 with
            property_list := s2.property_list.set ti (tgtP0.copyFrom srcP box) }) := by
  obtain ⟨hWf1, hWfidx, hWfauto, hWfnodup, hWflen⟩ := hWf
  have hltT : ti < s.property_list.length := (hWf1 _ (alookup_mem hti)).2
  simp only [GridProperties.supportsKeyword] at hsuppS hsuppT
  obtain ⟨infoS, hinfoS⟩ := Option.isSome_iff_exists.mp hsuppS
  obtain ⟨infoT, hinfoT⟩ := Option.isSome_iff_exists.mp hsuppT
  by_cases hpresS : (alookup s.properties src).isSome = true
  · -- the source already has an instance; the lazy read is a no-op
    obtain ⟨si, hsi⟩ := Option.isSome_iff_exists.mp hpresS
    have hltS : si < s.property_list.length := (hWf1 _ (alookup_mem hsi)).2
    have hgk1 : s.getKeyword src = (.ok (s.property_list.get ⟨si, hltS⟩), s) := by
      rw [getKeyword_present (by simpa [GridProperties.supportsKeyword] using hsuppS) hpresS,
        atProp_eq_ok hsi hltS]
    obtain ⟨s2, hgoc, h2p, h2l, _h2sk, _h2g⟩ :=
      getOrCreate_present hinfoT (by rw [hti]; rfl) hWfnodup
    have hti2 : alookup s2.properties tgt = some ti := by rw [h2p]; exact hti
    have hsi2 : alookup s2.properties src = some si := by rw [h2p]; exact hsi
    have hgetTi : s2.property_list.get? ti = some (s.property_list.get ⟨ti, hltT⟩) := by
      rw [h2l]
      exact List.get?_eq_get hltT
    have hgetSi : s2.property_list.get? si = some (s.property_list.get ⟨si, hltS⟩) := by
      rw [h2l]
      exact List.get?_eq_get hltS
    have hatp2 : s2.atProp tgt = .ok (s.property_list.get ⟨ti, hltT⟩) := by
      unfold GridProperties.atProp
      simp only [hti2, hgetTi]
    refine ⟨si, s2, s.property_list.get ⟨si, hltS⟩, s.property_list.get ⟨ti, hltT⟩,
      hsi2, hti2, hgetSi, hgetTi, List.get?_eq_get hltT,
      hWflen _ (List.get_mem _ _ _), hWflen _ (List.get_mem _ _ _), ?_⟩
    unfold GridProperties.copyKeyword
    rw [hgk1]
    simp only [hgoc, hatp2, hsi2, hti2, hgetSi, hgetTi]
  · -- the source is absent; getKeyword materializes it at the end of the arena
    have habs : alookup s.properties src = none := by
      cases h : alookup s.properties src
      · rfl
      · rw [h] at hpresS; simp at hpresS
    have hne : src ≠ tgt := by
      intro h
      rw [h, hti] at habs
      cases habs
    obtain ⟨h1p, h1auto, h1l, h1sk, _h1g, _, _, h1fst⟩ :=
      getKeyword_absent_fields hinfoS habs
    have hgk1 : s.getKeyword src
        = (.ok (GridProperty.make s.eclipseGrid.nx s.eclipseGrid.ny s.eclipseGrid.nz infoS),
           (s.getKeyword src).2) := by
      conv_lhs => rw [show s.getKeyword src = ((s.getKeyword src).1, (s.getKeyword src).2)
        from rfl]
      rw [h1fst]
    have hsrcNotAuto : src ∉ s.autoGeneratedProperties := by
      intro hm
      have := hWfauto src hm
      rw [habs] at this
      simp at this
    have hnodup1 : ((s.getKeyword src).2).autoGeneratedProperties.Nodup := by
      rw [h1auto]
      exact List.nodup_cons.mpr ⟨hsrcNotAuto, hWfnodup⟩
    have hinfoT1 : alookup ((s.getKeyword src).2).supportedKeywords tgt = some infoT := by
      rw [h1sk]
      exact hinfoT
    have hti1 : alookup ((s.getKeyword src).2).properties tgt = some ti := by
      rw [h1p]
      exact alookup_append_of_some _ hti
    obtain ⟨s2, hgoc, h2p, h2l, _h2sk, _h2g⟩ :=
      getOrCreate_present hinfoT1 (by rw [hti1]; rfl) hnodup1
    have hti2 : alookup s2.properties tgt = some ti := by rw [h2p]; exact hti1
    have hsi2 : alookup s2.properties src = some s.property_list.length := by
      rw [h2p, h1p]
      exact alookup_concat_self _ habs
    have hgetTi : s2.property_list.get? ti = some (s.property_list.get ⟨ti, hltT⟩) := by
      rw [h2l, h1l, List.get?_append hltT]
      exact List.get?_eq_get hltT
    have hgetSi : s2.property_list.get? s.property_list.length
        = some (GridProperty.make s.eclipseGrid.nx s.eclipseGrid.ny s.eclipseGrid.nz infoS) := by
      rw [h2l, h1l]
      exact List.get?_concat_length _ _
    have hatp2 : s2.atProp tgt = .ok (s.property_list.get ⟨ti, hltT⟩) := by
      unfold GridProperties.atProp
      simp only [hti2, hgetTi]
    refine ⟨s.property_list.length, s2,
      GridProperty.make s.eclipseGrid.nx s.eclipseGrid.ny s.eclipseGrid.nz infoS,
      s.property_list.get ⟨ti, hltT⟩,
      hsi2, hti2, hgetSi, hgetTi, List.get?_eq_get hltT,
      by simp [GridProperty.make, GridProperties.numCells],
      hWflen _ (List.get_mem _ _ _), ?_⟩
    unfold GridProperties.copyKeyword
    rw [hgk1]
    simp only [hgoc, hatp2, hsi2, hti2, hgetSi, hgetTi]

/-- C8: copyKeyword lazily materializes the source keyword if needed, obtains
or creates the target keyword, and afterwards every target cell inside the
region equals the corresponding source cell value while every target cell
outside the region retains its pre-call value (the target is assumed to hold
an instance before the call, as in the claim, which speaks of pre-existing
target values). -/
theorem C8_copyKeyword_region {T : Type} (s : GridProperties T) (src tgt : String)
    (box : Box) (ti : Nat)
    (hWf : s.Wf)
    (hsuppS : s.supportsKeyword src = true)
    (hsuppT : s.supportsKeyword tgt = true)
    (hti : alookup s.properties tgt = some ti) :
    (s.copyKeyword src tgt box).1 = .ok () ∧
    ∃ si, alookup ((s.copyKeyword src tgt box).2).properties src = some si ∧
      alookup ((s.copyKeyword src tgt box).2).properties tgt = some ti ∧
      ∃ srcP tgtP oldP,
        ((s.copyKeyword src tgt box).2).property_list.get? si = some srcP ∧
        ((s.copyKeyword src tgt box).2).property_list.get? ti = some tgtP ∧
        s.property_list.get? ti = some oldP ∧
        ∀ i, i < s.numCells →
          tgtP.values.get? i
            = if box.cells.contains i then srcP.values.get? i
              else oldP.values.get? i := by
  obtain ⟨si, s2, srcP0, tgtP0, hsi2, hti2, hgetSi, hgetTi, hgetOld, hlenS, hlenT, heq⟩ :=
    copyKeyword_shape hWf hsuppS hsuppT hti
  rw [heq]
  have hsetTi : (s2.property_list.set ti (tgtP0.copyFrom srcP0 box)).get? ti
      = some (tgtP0.copyFrom srcP0 box) := by
    rw [List.get?_set_eq, hgetTi]
    rfl
  have hlen2 : srcP0.values.length = tgtP0.values.length := by rw [hlenS, hlenT]
  by_cases hArg : si = ti
  · have hPeq : srcP0 = tgtP0 := by
      have h := hgetSi
      rw [hArg, hgetTi] at h
      exact (Option.some_inj.mp h).symm
    refine ⟨rfl, si, hsi2, hti2,
      tgtP0.copyFrom srcP0 box, tgtP0.copyFrom srcP0 box, tgtP0,
      by rw [hArg]; exact hsetTi, hsetTi, hgetOld, ?_⟩
    intro i hi
    have hi' : i < tgtP0.values.length := by rw [hlenT]; exact hi
    rw [copyFrom_get? _ _ _ _ hlen2 hi']
    cases hc : box.cells.contains i
    · simp
    · simp [hPeq]
  · have hsetSi : (s2.property_list.set ti (tgtP0.copyFrom srcP0 box)).get? si
        = some srcP0 := by
      rw [List.get?_set_ne _ _ (fun h => hArg h.symm), hgetSi]
    refine ⟨rfl, si, hsi2, hti2, srcP0, tgtP0.copyFrom srcP0 box, tgtP0,
      hsetSi, hsetTi, hgetOld, ?_⟩
    intro i hi
    have hi' : i < tgtP0.values.length := by rw [hlenT]; exact hi
    rw [copyFrom_get? _ _ _ _ hlen2 hi']

/-- Witness for C8: copy PORO over PERMX restricted to cell 0 on the 2-cell
grid, with PERMX explicitly materialized beforehand. -/
theorem C8_witness :
    exTgt.Wf ∧
    exTgt.supportsKeyword "PORO" = true ∧
    exTgt.supportsKeyword "PERMX" = true ∧
    alookup exTgt.properties "PERMX" = some 0 ∧
    ((exTgt.copyKeyword "PORO" "PERMX" ⟨[0]⟩).1 = .ok () ∧
     ∃ si, alookup ((exTgt.copyKeyword "PORO" "PERMX" ⟨[0]⟩).2).properties "PORO" = some si ∧
       alookup ((exTgt.copyKeyword "PORO" "PERMX" ⟨[0]⟩).2).properties "PERMX" = some 0 ∧
       ∃ srcP tgtP oldP,
         ((exTgt.copyKeyword "PORO" "PERMX" ⟨[0]⟩).2).property_list.get? si = some srcP ∧
         ((exTgt.copyKeyword "PORO" "PERMX" ⟨[0]⟩).2).property_list.get? 0 = some tgtP ∧
         exTgt.property_list.get? 0 = some oldP ∧
         ∀ i, i < exTgt.numCells →
           tgtP.values.get? i
             = if Box.cells ⟨[0]⟩ |>.contains i then srcP.values.get? i
               else oldP.values.get? i) :=
  ⟨by decide, by decide, by decide, by decide,
    C8_copyKeyword_region exTgt "PORO" "PERMX" ⟨[0]⟩ 0
      (by decide) (by decide) (by decide) (by decide)⟩
